import Mathlib

/-!
Verification development for the AprilTag alignment analysis tool
(`analyze_alignment.py`).  The script's core — session segmentation over a
status channel, per-session channel resampling, and the metrics engine —
is embedded shallowly below.  Python floats are modelled as `ℚ`; numpy
arrays as `List ℚ`; a channel is a pair of parallel timestamp/value lists;
fallible code paths (a Python exception) are `Except String`.
-/

namespace AlignmentAnalysis

/-- A numeric log channel: parallel timestamp/value arrays. -/
structure NumChannel where
  timestamps : List ℚ
  values : List ℚ
  deriving DecidableEq

/-- A boolean log channel (e.g. `Vision/HasTarget`, `FullyAligned`). -/
structure BoolChannel where
  timestamps : List ℚ
  values : List Bool
  deriving DecidableEq

/-- The status channel: discrete string states over time. -/
structure StatusChannel where
  timestamps : List ℚ
  values : List String
  deriving DecidableEq

/-- `self.data` after `load_log`: each logical channel is `none` when the
field was not found in the log. -/
structure AnalyzerData where
  status : Option StatusChannel
  forward_error : Option NumChannel
  lateral_error : Option NumChannel
  rotation_error : Option NumChannel
  forward_speed : Option NumChannel
  lateral_speed : Option NumChannel
  rotation_speed : Option NumChannel
  vision_has_target : Option BoolChannel
  fully_aligned : Option BoolChannel
  deriving DecidableEq

/-- The `AlignmentMetrics` dataclass. -/
structure AlignmentMetrics where
  success : Bool
  alignment_time : Option ℚ
  settling_time : Option ℚ
  final_forward_error : Option ℚ
  final_lateral_error : Option ℚ
  final_rotation_error : Option ℚ
  max_forward_error : ℚ
  max_lateral_error : ℚ
  max_rotation_error : ℚ
  forward_overshoot : ℚ
  lateral_overshoot : ℚ
  rotation_overshoot : ℚ
  forward_oscillations : Nat
  lateral_oscillations : Nat
  rotation_oscillations : Nat
  avg_forward_speed : ℚ
  avg_lateral_speed : ℚ
  avg_rotation_speed : ℚ
  target_lost_count : Nat
  target_id : Option Int
  deriving DecidableEq

/-- The `AlignmentSession` dataclass. -/
structure AlignmentSession where
  start_time : ℚ
  end_time : ℚ
  duration : ℚ
  metrics : AlignmentMetrics
  timestamps : List ℚ
  forward_error : List ℚ
  lateral_error : List ℚ
  rotation_error : List ℚ
  forward_speed : List ℚ
  lateral_speed : List ℚ
  rotation_speed : List ℚ
  has_target : List Bool
  aligned_flags : List Bool
  deriving DecidableEq

/-- `np.abs` on one rational (an explicit form of `|x|` that the kernel
evaluates directly). -/
def np_abs (x : ℚ) : ℚ := if x < 0 then -x else x

/-- Binary minimum in explicit form. -/
def rat_min (a b : ℚ) : ℚ := if a ≤ b then a else b

/-- Binary maximum in explicit form. -/
def rat_max (a b : ℚ) : ℚ := if a ≤ b then b else a

/-- `np.min` of a nonempty array (callers guard emptiness; `0` otherwise). -/
def list_min : List ℚ → ℚ
  | [] => 0
  | a :: l => l.foldl rat_min a

/-- `np.max` of a nonempty array (callers guard emptiness; `0` otherwise). -/
def list_max : List ℚ → ℚ
  | [] => 0
  | a :: l => l.foldl rat_max a

/-- `np.mean`. -/
def np_mean (xs : List ℚ) : ℚ := xs.sum / (xs.length : ℚ)

/-- Population variance; `np.std(xs)` is its square root (`ddof = 0`). -/
def np_var (xs : List ℚ) : ℚ := np_mean (xs.map (fun x => (x - np_mean xs) ^ 2))

/-- `np.sign`. -/
def np_sign (x : ℚ) : Int := if 0 < x then 1 else if x < 0 then -1 else 0

/-- Elementwise `(|fe| < f_tol) & (|le| < l_tol) & (|re| < r_tol)`
from `_calculate_settling_time`. -/
def within_tol_list (fe le re : List ℚ) (f_tol l_tol r_tol : ℚ) : List Bool :=
  List.zipWith (fun a b => a && b)
    (fe.map (fun x => decide (np_abs x < f_tol)))
    (List.zipWith (fun a b => a && b)
      (le.map (fun x => decide (np_abs x < l_tol)))
      (re.map (fun x => decide (np_abs x < r_tol))))

/-- One iteration of the settling loop body in `_calculate_settling_time`:
at index `i`, if within tolerance, build the mask of samples whose time is
`>= timestamps[i] + settle_duration`; succeed when that mask is nonempty
and every masked sample is within tolerance. -/
def settle_candidate (ts : List ℚ) (wt : List Bool) (settle_duration : ℚ)
    (i : Nat) : Option ℚ :=
  if wt.getD i false then
    let time_at_i := ts.getD i 0
    let future := (ts.zip wt).filter (fun p => decide (time_at_i + settle_duration ≤ p.1))
    if decide (0 < future.length) && future.all (fun p => p.2) then some time_at_i
    else none
  else none

/-- `_calculate_settling_time`. -/
def calculate_settling_time (ts fe le re : List ℚ)
    (forward_tol lateral_tol rotation_tol settle_duration : ℚ) : Option ℚ :=
  let wt := within_tol_list fe le re forward_tol lateral_tol rotation_tol
  if !(wt.any id) then none
  else (List.range ts.length).findSome? (settle_candidate ts wt settle_duration)

/-- `_calculate_overshoot`. -/
def calculate_overshoot (error : List ℚ) : ℚ :=
  if error.length < 2 then 0
  else
    match error with
    | [] => 0
    | e0 :: rest =>
      if np_abs e0 < 1/1000 then 0
      else if 0 < e0 then
        let m := list_min (e0 :: rest)
        if m < 0 then np_abs (m / e0) * 100 else 0
      else
        let m := list_max (e0 :: rest)
        if 0 < m then np_abs (m / e0) * 100 else 0

/-- `_count_zero_crossings`: `np.sum(np.diff(np.sign(signal)) != 0)`. -/
def count_zero_crossings (signal : List ℚ) : Nat :=
  if signal.length < 2 then 0
  else
    let sgns := signal.map np_sign
    (sgns.zip sgns.tail).countP (fun p => decide (p.1 ≠ p.2))

/-- `_count_target_losses`: transitions from `true` to `false`. -/
def count_target_losses (has_target : List Bool) : Nat :=
  if has_target.length < 2 then 0
  else (has_target.zip has_target.tail).countP (fun p => p.1 && !p.2)

/-- `_calculate_metrics`. -/
def calculate_metrics (timestamps forward_error lateral_error rotation_error
    forward_speed lateral_speed rotation_speed : List ℚ)
    (has_target aligned_flags : List Bool) : AlignmentMetrics :=
  let success := aligned_flags.any id
  let alignment_time :=
    if success then (aligned_flags.findIdx? id).map (fun i => timestamps.getD i 0)
    else none
  let settling_time :=
    calculate_settling_time timestamps forward_error lateral_error rotation_error
      (1/10) (1/20) 2 (1/2)
  { success := success
    alignment_time := alignment_time
    settling_time := settling_time
    final_forward_error := forward_error.getLast?
    final_lateral_error := lateral_error.getLast?
    final_rotation_error := rotation_error.getLast?
    max_forward_error :=
      if 0 < forward_error.length then list_max (forward_error.map np_abs) else 0
    max_lateral_error :=
      if 0 < lateral_error.length then list_max (lateral_error.map np_abs) else 0
    max_rotation_error :=
      if 0 < rotation_error.length then list_max (rotation_error.map np_abs) else 0
    forward_overshoot := calculate_overshoot forward_error
    lateral_overshoot := calculate_overshoot lateral_error
    rotation_overshoot := calculate_overshoot rotation_error
    forward_oscillations := count_zero_crossings forward_error
    lateral_oscillations := count_zero_crossings lateral_error
    rotation_oscillations := count_zero_crossings rotation_error
    avg_forward_speed :=
      if 0 < forward_speed.length then np_mean (forward_speed.map np_abs) else 0
    avg_lateral_speed :=
      if 0 < lateral_speed.length then np_mean (lateral_speed.map np_abs) else 0
    avg_rotation_speed :=
      if 0 < rotation_speed.length then np_mean (rotation_speed.map np_abs) else 0
    target_lost_count := count_target_losses has_target
    target_id := none }

/-- The nested helper `get_values_in_range` of `_extract_session`, for a
numeric channel: `([], [])` (a plain Python list) when the channel is
absent, otherwise the samples whose timestamp lies in
`[start_time, end_time]`. -/
def get_values_in_range (ch : Option NumChannel) (start_time end_time : ℚ) :
    List ℚ × List ℚ :=
  match ch with
  | none => ([], [])
  | some c =>
    let pairs := (c.timestamps.zip c.values).filter
      (fun p => decide (start_time ≤ p.1 ∧ p.1 ≤ end_time))
    (pairs.map Prod.fst, pairs.map Prod.snd)

/-- `get_values_in_range` on a boolean channel.  `none` models the plain
Python list `[]` returned for an absent channel — the caller then evaluates
`[].astype(float)`, which raises `AttributeError`; `some` is the ndarray
pair for a present channel. -/
def get_bool_values_in_range (ch : Option BoolChannel) (start_time end_time : ℚ) :
    Option (List ℚ × List Bool) :=
  match ch with
  | none => none
  | some c =>
    let pairs := (c.timestamps.zip c.values).filter
      (fun p => decide (start_time ≤ p.1 ∧ p.1 ≤ end_time))
    some (pairs.map Prod.fst, pairs.map Prod.snd)

/-- The interpolation kernel of `np.interp` on the point list
`(t0, v0) :: rest` with source timestamps sorted: clamp left of the first
point and right of the last point, return `v_j` exactly when `x` equals a
source timestamp (the rightmost such index when timestamps repeat), and
interpolate linearly strictly inside an interval. -/
def interp_points (x : ℚ) : (ℚ × ℚ) → List (ℚ × ℚ) → ℚ
  | (_, v0), [] => v0
  | (t0, v0), (t1, v1) :: rest =>
    if x < t1 then
      if x ≤ t0 then v0
      else v0 + (v1 - v0) * (x - t0) / (t1 - t0)
    else interp_points x (t1, v1) rest

/-- `np.interp(t_dest, t_src, vals)`. -/
def np_interp (t_dest t_src vals : List ℚ) : List ℚ :=
  match t_src.zip vals with
  | [] => t_dest.map (fun _ => 0)
  | p :: ps => t_dest.map (fun x => interp_points x p ps)

/-- The nested helper `interp_to_common` of `_extract_session`: an empty
source becomes `np.zeros_like(t_dest)`. -/
def interp_to_common (t_src vals t_dest : List ℚ) : List ℚ :=
  if t_src.length = 0 ∨ vals.length = 0 then t_dest.map (fun _ => 0)
  else np_interp t_dest t_src vals

/-- Conversion applied by `.astype(float)` to one boolean sample. -/
def bool_to_float (b : Bool) : ℚ := if b then 1 else 0

/-- The boolean resampling pipeline of `_extract_session`:
`interp_to_common(t, vals.astype(float), t_dest) > 0.5`.  When the channel
was absent, `vals` is the plain list `[]` and `.astype` raises. -/
def bool_resample (r : Option (List ℚ × List Bool)) (t_dest : List ℚ) :
    Except String (List Bool) :=
  match r with
  | none => Except.error "AttributeError"
  | some (ts, vs) =>
    Except.ok ((interp_to_common ts (vs.map bool_to_float) t_dest).map
      (fun x => decide (1/2 < x)))

/-- The reference-timestamp choice in `_extract_session`: forward-error
timestamps if any, else rotation-error timestamps if any, else no session. -/
def choose_reference (t_forward_err t_rotation_err : List ℚ) : Option (List ℚ) :=
  if 0 < t_forward_err.length then some t_forward_err
  else if 0 < t_rotation_err.length then some t_rotation_err
  else none

/-- The body of `_extract_session` after the duration guard. -/
def build_session (d : AnalyzerData) (start_time end_time : ℚ) :
    Except String (Option AlignmentSession) :=
  let rFE := get_values_in_range d.forward_error start_time end_time
  let rLE := get_values_in_range d.lateral_error start_time end_time
  let rRE := get_values_in_range d.rotation_error start_time end_time
  let rFS := get_values_in_range d.forward_speed start_time end_time
  let rLS := get_values_in_range d.lateral_speed start_time end_time
  let rRS := get_values_in_range d.rotation_speed start_time end_time
  let rHT := get_bool_values_in_range d.vision_has_target start_time end_time
  let rAL := get_bool_values_in_range d.fully_aligned start_time end_time
  match choose_reference rFE.1 rRE.1 with
  | none => Except.ok none
  | some timestamps =>
    let forwardE := interp_to_common rFE.1 rFE.2 timestamps
    let lateralE := interp_to_common rLE.1 rLE.2 timestamps
    let rotationE := interp_to_common rRE.1 rRE.2 timestamps
    let forwardS := interp_to_common rFS.1 rFS.2 timestamps
    let lateralS := interp_to_common rLS.1 rLS.2 timestamps
    let rotationS := interp_to_common rRS.1 rRS.2 timestamps
    match bool_resample rHT timestamps with
    | Except.error e => Except.error e
    | Except.ok hasT =>
      match bool_resample rAL timestamps with
      | Except.error e => Except.error e
      | Except.ok alignedF =>
        let relT := timestamps.map (fun t => t - start_time)
        let metrics := calculate_metrics relT forwardE lateralE rotationE
          forwardS lateralS rotationS hasT alignedF
        Except.ok (some
          { start_time := start_time
            end_time := end_time
            duration := end_time - start_time
            metrics := metrics
            timestamps := relT
            forward_error := forwardE
            lateral_error := lateralE
            rotation_error := rotationE
            forward_speed := forwardS
            lateral_speed := lateralS
            rotation_speed := rotationS
            has_target := hasT
            aligned_flags := alignedF })

/-- `_extract_session`: indices into the status channel delimit the
session; sessions shorter than 0.1s are dropped before any channel work. -/
def extract_session (d : AnalyzerData) (sd : StatusChannel)
    (start_idx end_idx : Nat) : Except String (Option AlignmentSession) :=
  let start_time := sd.timestamps.getD start_idx 0
  let end_time := sd.timestamps.getD end_idx 0
  if end_time - start_time < 1/10 then Except.ok none
  else build_session d start_time end_time

/-- Session-opening statuses. -/
def is_start_trigger (s : String) : Bool := s = "STARTED" || s = "ALIGNING"

/-- Session-closing statuses. -/
def is_end_trigger (s : String) : Bool := s = "COMPLETED" || s = "INTERRUPTED"

/-- The scan loop of `find_alignment_sessions`: first argument is
`session_start_idx` when in a session, second is the current index.  A scan
that ends in a session closes it at the final index (`i - 1` once the list
is exhausted at position `i`). -/
def session_ranges_aux : Option Nat → Nat → List String → List (Nat × Nat)
  | none, _, [] => []
  | some j, i, [] => [(j, i - 1)]
  | none, i, s :: rest =>
    if is_start_trigger s then session_ranges_aux (some i) (i + 1) rest
    else session_ranges_aux none (i + 1) rest
  | some j, i, s :: rest =>
    if is_end_trigger s then (j, i) :: session_ranges_aux none (i + 1) rest
    else session_ranges_aux (some j) (i + 1) rest

/-- The (start_idx, end_idx) pairs produced by the scan in
`find_alignment_sessions`.  The Python loop runs over
`range(len(timestamps))` indexing `values[i]`; the two arrays are parallel
(equal lengths), so the scan is over the status values. -/
def session_ranges (statuses : List String) : List (Nat × Nat) :=
  session_ranges_aux none 0 statuses

/-- The per-range extraction in `find_alignment_sessions`: dropped ranges
(`ok none`) are skipped; a Python exception aborts the whole analysis. -/
def collect_sessions (d : AnalyzerData) (sd : StatusChannel) :
    List (Nat × Nat) → Except String (List AlignmentSession)
  | [] => Except.ok []
  | r :: rest =>
    match extract_session d sd r.1 r.2 with
    | Except.error e => Except.error e
    | Except.ok none => collect_sessions d sd rest
    | Except.ok (some s) =>
      match collect_sessions d sd rest with
      | Except.error e => Except.error e
      | Except.ok l => Except.ok (s :: l)

/-- `find_alignment_sessions`: no status channel yields zero sessions. -/
def find_alignment_sessions (d : AnalyzerData) :
    Except String (List AlignmentSession) :=
  match d.status with
  | none => Except.ok []
  | some sd => collect_sessions d sd (session_ranges sd.values)

/-- Python truthiness of an `Optional[float]`: `None` and `0.0` are falsy. -/
def py_truthy (o : Option ℚ) : Bool :=
  match o with
  | none => false
  | some v => decide (v ≠ 0)

/-- The summary collection in `main`:
`[t for t in times if t]` over optional per-session values. -/
def collect_truthy (xs : List (Option ℚ)) : List ℚ :=
  xs.filterMap (fun o => if py_truthy o then o else none)

/-- `main`: values entering the alignment-time aggregate. -/
def summary_alignment_times (ms : List AlignmentMetrics) : List ℚ :=
  collect_truthy (ms.map (fun m => m.alignment_time))

/-- `main`: values entering the settling-time aggregate. -/
def summary_settling_times (ms : List AlignmentMetrics) : List ℚ :=
  collect_truthy (ms.map (fun m => m.settling_time))

/-- `main`: `sum(success) / len(sessions) * 100`. -/
def summary_success_rate (ms : List AlignmentMetrics) : ℚ :=
  ((ms.countP (fun m => m.success) : ℚ) / (ms.length : ℚ)) * 100

/-- Unwrap an analysis outcome to its session list (empty on error), for
stating concrete evaluations. -/
def sessions_of : Except String (List AlignmentSession) → List AlignmentSession
  | Except.ok l => l
  | Except.error _ => []

/-- Session-relative timestamps of a single extraction outcome. -/
def result_timestamps : Except String (Option AlignmentSession) → List ℚ
  | Except.ok (some s) => s.timestamps
  | _ => []

/-! ## Specification-side definitions

These are written from the spec's words, for comparison with the
code-derived definitions above. -/

/-- Settling time as the spec claims it: the earliest sample time `t0`
within tolerance such that every sample at time `≥ t0` — including the
window up to `t0 + 0.5s` — is within tolerance. -/
def settling_time_claimed (ts fe le re : List ℚ) (f_tol l_tol r_tol : ℚ) :
    Option ℚ :=
  let wt := within_tol_list fe le re f_tol l_tol r_tol
  let samples := ts.zip wt
  samples.findSome? (fun s =>
    if s.2 && samples.all (fun q => !(decide (s.1 ≤ q.1)) || q.2) then some s.1
    else none)

/-- One candidate check of the amended settling-time description: the
sample `s` is in tolerance, some sample occurs at time
`≥ s.time + settle_duration`, and every sample at such a time is in
tolerance. -/
def amended_candidate (samples : List (ℚ × Bool)) (settle_duration : ℚ)
    (s : ℚ × Bool) : Option ℚ :=
  if s.2 && samples.any (fun q => decide (s.1 + settle_duration ≤ q.1))
      && samples.all (fun q => !(decide (s.1 + settle_duration ≤ q.1)) || q.2)
  then some s.1 else none

/-- Settling time as the code actually computes it, phrased over samples:
the earliest in-tolerance sample time `t0` such that at least one sample
occurs at time `≥ t0 + settle_duration` and every sample at such a time is
within tolerance; samples strictly inside `(t0, t0 + settle_duration)` are
not examined. -/
def settling_time_amended (ts fe le re : List ℚ)
    (f_tol l_tol r_tol settle_duration : ℚ) : Option ℚ :=
  let wt := within_tol_list fe le re f_tol l_tol r_tol
  let samples := ts.zip wt
  samples.findSome? (amended_candidate samples settle_duration)

/-- Overshoot as the spec states it. -/
def overshoot_claimed (error : List ℚ) : ℚ :=
  if error.length < 2 then 0
  else
    match error with
    | [] => 0
    | e0 :: rest =>
      if |e0| < 1/1000 then 0
      else if 0 < e0 then max 0 (-(list_min (e0 :: rest))) / e0 * 100
      else if e0 < 0 then max 0 (list_max (e0 :: rest)) / |e0| * 100
      else 0

/-! ## Concrete example data -/

/-- A minimal status channel with one STARTED/COMPLETED pair one second
apart. -/
def pair_status : StatusChannel := ⟨[0, 1], ["STARTED", "COMPLETED"]⟩

/-- Log data with all channels needed for a clean extraction of the
`pair_status` session: forward error present, boolean channels present. -/
def c2_ok_data : AnalyzerData :=
  { status := some pair_status
    forward_error := some ⟨[0], [0]⟩
    lateral_error := none
    rotation_error := none
    forward_speed := none
    lateral_speed := none
    rotation_speed := none
    vision_has_target := some ⟨[0], [false]⟩
    fully_aligned := some ⟨[0], [false]⟩ }

/-- Same log but with the `Vision/HasTarget` channel absent. -/
def c2_no_target_data : AnalyzerData :=
  { c2_ok_data with vision_has_target := none }

/-- Same log but with the `FullyAligned` channel absent. -/
def c2_no_aligned_data : AnalyzerData :=
  { c2_ok_data with fully_aligned := none }

/-- Log where the forward-error channel has one in-range sample and the
rotation-error channel has two. -/
def c3_data : AnalyzerData :=
  { c2_ok_data with rotation_error := some ⟨[0, 1/2], [0, 0]⟩ }

/-- Log whose only reference channel starts strictly after the session's
start time. -/
def c6_data : AnalyzerData :=
  { c2_ok_data with forward_error := some ⟨[1/20, 1/10], [0, 0]⟩ }

/-- The spec's segmenter test sequence, timestamps 0.2s apart. -/
def c4_status : StatusChannel :=
  ⟨[0, 1/5, 2/5, 3/5, 4/5, 1, 6/5],
   ["IDLE", "STARTED", "ALIGNING", "COMPLETED", "IDLE", "STARTED", "INTERRUPTED"]⟩

/-- Full log around `c4_status`, with a forward-error channel sampled at
the same instants so extraction succeeds. -/
def c4_data : AnalyzerData :=
  { status := some c4_status
    forward_error := some ⟨[0, 1/5, 2/5, 3/5, 4/5, 1, 6/5], [0, 0, 0, 0, 0, 0, 0]⟩
    lateral_error := none
    rotation_error := none
    forward_speed := none
    lateral_speed := none
    rotation_speed := none
    vision_has_target := some ⟨[0], [false]⟩
    fully_aligned := some ⟨[0], [false]⟩ }

/-- A metrics record with the given success flag and timing fields and
neutral values elsewhere, for exercising the summary aggregation. -/
def mk_metrics (succ : Bool) (a_time s_time : Option ℚ) : AlignmentMetrics :=
  { success := succ
    alignment_time := a_time
    settling_time := s_time
    final_forward_error := none
    final_lateral_error := none
    final_rotation_error := none
    max_forward_error := 0
    max_lateral_error := 0
    max_rotation_error := 0
    forward_overshoot := 0
    lateral_overshoot := 0
    rotation_overshoot := 0
    forward_oscillations := 0
    lateral_oscillations := 0
    rotation_oscillations := 0
    avg_forward_speed := 0
    avg_lateral_speed := 0
    avg_rotation_speed := 0
    target_lost_count := 0
    target_id := none }

/-- Projection of an extraction outcome for stating concrete results. -/
def result_session : Except String (Option AlignmentSession) → Option AlignmentSession
  | Except.ok (some s) => some s
  | _ => none

/-- Log with no reference channels at all (both forward- and
rotation-error absent). -/
def c3_empty_data : AnalyzerData :=
  { c2_ok_data with forward_error := none }

/-- A placeholder session used only as a `getD` default. -/
def empty_session : AlignmentSession :=
  { start_time := 0, end_time := 0, duration := 0
    metrics := mk_metrics false none none
    timestamps := [], forward_error := [], lateral_error := []
    rotation_error := [], forward_speed := [], lateral_speed := []
    rotation_speed := [], has_target := [], aligned_flags := [] }

/-- The concrete session extracted from `c6_data`. -/
def c6_session : AlignmentSession :=
  (result_session (extract_session c6_data pair_status 0 1)).getD empty_session

/-- Status pair 0.05s apart (shorter than the 0.1s cutoff). -/
def c8_short_status : StatusChannel := ⟨[0, 1/20], ["STARTED", "COMPLETED"]⟩

/-- Status pair exactly 0.1s apart. -/
def c8_exact_status : StatusChannel := ⟨[0, 1/10], ["STARTED", "COMPLETED"]⟩

/-- Status channel with two sessions for the ordering invariant. -/
def c10_status : StatusChannel :=
  ⟨[0, 1/5, 2/5, 3/5, 4/5, 1, 6/5],
   ["IDLE", "STARTED", "ALIGNING", "COMPLETED", "IDLE", "STARTED", "INTERRUPTED"]⟩

/-- Full log around `c10_status`. -/
def c10_data : AnalyzerData :=
  { status := some c10_status
    forward_error := some ⟨[0, 1/5, 2/5, 3/5, 4/5, 1, 6/5], [0, 0, 0, 0, 0, 0, 0]⟩
    lateral_error := none
    rotation_error := none
    forward_speed := none
    lateral_speed := none
    rotation_speed := none
    vision_has_target := some ⟨[0], [false]⟩
    fully_aligned := some ⟨[0], [false]⟩ }

deriving instance DecidableEq for Except

/-! ## Bridge lemmas between the explicit operations and Mathlib's -/

theorem np_abs_eq_abs (x : ℚ) : np_abs x = |x| := by
  unfold np_abs
  rcases lt_or_ge x 0 with h | h
  · rw [if_pos h, abs_of_neg h]
  · rw [if_neg (not_lt.mpr h), abs_of_nonneg h]

theorem rat_min_eq_min (a b : ℚ) : rat_min a b = min a b := by
  unfold rat_min
  rw [min_def]

theorem rat_max_eq_max (a b : ℚ) : rat_max a b = max a b := by
  unfold rat_max
  rw [max_def]

/-! ## Claims -/

/-- C1 (counterexample).  The settling-time search does not check the
samples strictly between a candidate `t0` and `t0 + 0.5s`: with timestamps
`[0, 0.2, 1]` and a forward error of `0.2 m` (out of tolerance) at `t =
0.2`, the code still returns `t0 = 0`, while the claimed definition
(every sample from `t0` onward within tolerance) yields `1`.  Moreover a
lone in-tolerance sample with no sample `0.5s` later is never a candidate:
on the one-sample session the code returns `none` where the claimed
definition yields `0`. -/
theorem settling_time_ignores_window_gap :
    calculate_settling_time [0, 1/5, 1] [0, 1/5, 0] [0, 0, 0] [0, 0, 0]
      (1/10) (1/20) 2 (1/2) = some 0 ∧
    settling_time_claimed [0, 1/5, 1] [0, 1/5, 0] [0, 0, 0] [0, 0, 0]
      (1/10) (1/20) 2 = some 1 ∧
    calculate_settling_time [0] [0] [0] [0] (1/10) (1/20) 2 (1/2) = none ∧
    settling_time_claimed [0] [0] [0] [0] (1/10) (1/20) 2 = some 0 := by
  with_unfolding_all decide

/-- C2 (code bug).  An absent boolean channel does not degrade gracefully:
`_extract_session` evaluates `[].astype(float)` on the plain list returned
for the missing channel and raises `AttributeError`, both for
`Vision/HasTarget` and for `FullyAligned`.  Absent numeric channels do
degrade as claimed: with only the boolean channels present, the absent
lateral error resamples to a constant zero array and the metrics touched
by absent signals take neutral values. -/
theorem absent_bool_channel_raises :
    extract_session c2_no_target_data pair_status 0 1 =
      Except.error "AttributeError" ∧
    extract_session c2_no_aligned_data pair_status 0 1 =
      Except.error "AttributeError" ∧
    (result_session (extract_session c2_ok_data pair_status 0 1)).map
      (fun s => (s.lateral_error, s.metrics.success, s.metrics.alignment_time,
        s.metrics.avg_lateral_speed, s.metrics.target_lost_count)) =
      some ([0], false, none, 0, 0) := by
  with_unfolding_all decide

/-- C3 (counterexample).  The reference timestamps are not taken from the
channel with the most in-range samples: here the rotation-error channel
has two samples in range and the forward-error channel only one, yet the
session's reference array is the forward-error one. -/
theorem reference_prefers_forward_counterexample :
    result_timestamps (extract_session c3_data pair_status 0 1) = [0] ∧
    (get_values_in_range c3_data.forward_error 0 1).1.length = 1 ∧
    (get_values_in_range c3_data.rotation_error 0 1).1.length = 2 := by
  with_unfolding_all decide

/-- C5 (code bug).  The summary filters with Python truthiness, so a
session whose alignment (or settling) time is exactly `0.0` — a defined
value — is dropped from the aggregate: for per-session alignment times
`[0, 2]` the code aggregates `[2]` (mean `2`) while the claimed non-`None`
collection is `[0, 2]` (mean `1`); the same happens for settling times.
The success rate itself is computed from all sessions, and an all-`None`
metric yields an empty collection (the "unavailable" branch) without
affecting the success rate. -/
theorem zero_time_excluded_from_summary :
    summary_alignment_times [mk_metrics true (some 0) none, mk_metrics true (some 2) none] = [2] ∧
    ([mk_metrics true (some 0) none, mk_metrics true (some 2) none].map
      (fun m => m.alignment_time)).filterMap id = [0, 2] ∧
    np_mean [(2 : ℚ)] = 2 ∧
    np_mean [(0 : ℚ), 2] = 1 ∧
    summary_settling_times [mk_metrics true none (some 0), mk_metrics true none (some 2)] = [2] ∧
    summary_success_rate [mk_metrics true (some 0) none, mk_metrics false none none] = 50 ∧
    summary_alignment_times [mk_metrics true none none, mk_metrics false none none] = [] ∧
    summary_success_rate [mk_metrics true none none, mk_metrics false none none] = 50 := by
  with_unfolding_all decide

/-- C6 (counterexample).  The session-relative clock is not shifted to the
first reference timestamp: with the session opening at `t = 0` and the
first in-range forward-error sample at `t = 0.05`, the relative timestamp
array starts at `0.05`, not `0`. -/
theorem relative_time_not_zero_at_start :
    result_timestamps (extract_session c6_data pair_status 0 1) = [1/20, 1/10] ∧
    ((1 : ℚ)/20 ≠ 0) := by
  with_unfolding_all decide

/-- C9 (counterexample).  Resampling a channel onto its own timestamps is
not exact when the (non-decreasing) timestamps contain duplicates:
`np.interp` evaluates duplicated grid points at the rightmost duplicate,
so values `[0, 5, 7, 2]` on timestamps `[0, 1, 1, 2]` come back as
`[0, 7, 7, 2]`. -/
theorem resample_duplicate_counterexample :
    interp_to_common [0, 1, 1, 2] [0, 5, 7, 2] [0, 1, 1, 2] = [0, 7, 7, 2] ∧
    List.Chain' (· ≤ ·) [(0 : ℚ), 1, 1, 2] ∧
    ([0, 7, 7, 2] : List ℚ) ≠ [0, 5, 7, 2] := by
  refine ⟨by with_unfolding_all decide, ?_, by with_unfolding_all decide⟩
  simp [List.chain'_cons]

/-- C4 (confirmed).  The segmenter is the claimed two-state machine: on
the spec's seven-status sequence it finds exactly the index ranges
`(1, 3)` and `(5, 6)`, and on the full log (0.2s spacing) exactly two
sessions bounded by those samples' times; statuses that are not start
triggers never open a session from IDLE, and when no end trigger ever
arrives an open session is closed at the final sample index. -/
theorem segmenter_behaviour :
    session_ranges ["IDLE", "STARTED", "ALIGNING", "COMPLETED", "IDLE",
      "STARTED", "INTERRUPTED"] = [(1, 3), (5, 6)] ∧
    (sessions_of (find_alignment_sessions c4_data)).map
      (fun s => (s.start_time, s.end_time)) = [(1/5, 3/5), (1, 6/5)] ∧
    (∀ (ss : List String) (i : Nat),
      session_ranges_aux none i (ss.filter (fun s => !(is_start_trigger s))) = []) ∧
    (∀ (ss : List String) (j i : Nat),
      session_ranges_aux (some j) i (ss.filter (fun s => !(is_end_trigger s))) =
        [(j, i + (ss.filter (fun s => !(is_end_trigger s))).length - 1)]) := by
  refine ⟨by decide, by with_unfolding_all decide, ?_, ?_⟩
  · intro ss
    induction ss with
    | nil => intro i; rfl
    | cons s rest ih =>
      intro i
      by_cases h : is_start_trigger s
      · simp [List.filter_cons, h, ih]
      · simp [List.filter_cons, h, session_ranges_aux, ih]
  · intro ss j
    induction ss with
    | nil => intro i; rfl
    | cons s rest ih =>
      intro i
      by_cases h : is_end_trigger s
      · simp [List.filter_cons, h, ih]
      · rw [List.filter_cons, if_pos (by simp [h])]
        rw [show session_ranges_aux (some j) i
              (s :: rest.filter (fun s => !(is_end_trigger s))) =
            session_ranges_aux (some j) (i + 1)
              (rest.filter (fun s => !(is_end_trigger s))) from by
          simp [session_ranges_aux, h]]
        rw [ih (i + 1), List.length_cons]
        congr 2
        omega


/-- C7 (confirmed).  The overshoot computation agrees with the spec's
formula on every error signal: degenerate and near-zero-initial signals
give `0%`, a positive initial error gives `max(0, -min e) / e[0] * 100`, a
negative one gives `max(0, max e) / |e[0]| * 100`; on `[1, 0.5, -0.3, 0.1]`
the overshoot is `30`. -/
theorem overshoot_formula_matches :
    (∀ e : List ℚ, calculate_overshoot e = overshoot_claimed e) ∧
    calculate_overshoot [1, 1/2, -3/10, 1/10] = 30 := by
  constructor
  · intro e
    cases e with
    | nil => rfl
    | cons e0 rest =>
      simp only [calculate_overshoot, overshoot_claimed]
      by_cases hl : (e0 :: rest).length < 2
      · rw [if_pos hl, if_pos hl]
      · rw [if_neg hl, if_neg hl]
        by_cases hg : np_abs e0 < 1/1000
        · have hg' : |e0| < 1/1000 := by rwa [np_abs_eq_abs] at hg
          rw [if_pos hg, if_pos hg']
        · have hg' : ¬ (|e0| < 1/1000) := by rwa [np_abs_eq_abs] at hg
          rw [if_neg hg, if_neg hg']
          by_cases hpos : 0 < e0
          · rw [if_pos hpos, if_pos hpos]
            by_cases hneg : list_min (e0 :: rest) < 0
            · rw [if_pos hneg, np_abs_eq_abs, abs_div,
                abs_of_neg hneg, abs_of_pos hpos,
                max_eq_right (by linarith : (0 : ℚ) ≤ -(list_min (e0 :: rest)))]
            · rw [if_neg hneg,
                max_eq_left (by linarith [not_lt.mp hneg] :
                  -(list_min (e0 :: rest)) ≤ 0)]
              simp
          · have hne : e0 ≠ 0 := by
              intro h
              apply hg'
              rw [h, abs_zero]
              norm_num
            have hneg0 : e0 < 0 := lt_of_le_of_ne (not_lt.mp hpos) hne
            rw [if_neg hpos, if_neg hpos, if_pos hneg0]
            by_cases hMp : 0 < list_max (e0 :: rest)
            · rw [if_pos hMp, np_abs_eq_abs, abs_div, abs_of_pos hMp,
                max_eq_right (le_of_lt hMp)]
            · rw [if_neg hMp, max_eq_left (not_lt.mp hMp)]
              simp
  · with_unfolding_all decide

/-! ## Generic list lemmas used by the equivalence proofs -/

theorem findSome?_range_getD {α β : Type _} (l : List α) (d : α) (F : α → Option β) :
    (List.range l.length).findSome? (fun i => F (l.getD i d)) = l.findSome? F := by
  induction l with
  | nil => rfl
  | cons a t ih =>
    rw [List.length_cons, List.range_succ_eq_map, List.findSome?_cons,
      List.findSome?_cons, List.findSome?_map]
    simp only [List.getD_cons_zero]
    cases F a with
    | some b => rfl
    | none =>
      have hc : ((fun i => F ((a :: t).getD i d)) ∘ Nat.succ) =
          fun i => F (t.getD i d) := by
        funext i
        simp [List.getD_cons_succ]
      rw [hc, ih]

theorem findSome?_congr {α β : Type _} {f g : α → Option β} (l : List α)
    (h : ∀ a ∈ l, f a = g a) : l.findSome? f = l.findSome? g := by
  induction l with
  | nil => rfl
  | cons a t ih =>
    rw [List.findSome?_cons, List.findSome?_cons, h a (by simp)]
    cases g a with
    | some b => rfl
    | none => exact ih (fun x hx => h x (by simp [hx]))

theorem zip_getD {α β : Type _} (l1 : List α) (l2 : List β) (d1 : α) (d2 : β)
    (i : Nat) (h1 : i < l1.length) (h2 : i < l2.length) :
    (l1.zip l2).getD i (d1, d2) = (l1.getD i d1, l2.getD i d2) := by
  have hz : i < (l1.zip l2).length := by
    rw [List.length_zip]
    omega
  rw [List.getD_eq_getElem _ _ hz, List.getD_eq_getElem _ _ h1,
    List.getD_eq_getElem _ _ h2, List.getElem_zip]

theorem filter_length_pos_eq_any {α : Type _} (l : List α) (p : α → Bool) :
    decide (0 < (l.filter p).length) = l.any p := by
  rw [Bool.eq_iff_iff, decide_eq_true_eq, List.length_pos, ne_eq,
    List.filter_eq_nil_iff, List.any_eq_true]
  push_neg
  constructor
  · rintro ⟨a, ha, hp⟩
    exact ⟨a, ha, hp⟩
  · rintro ⟨a, ha, hp⟩
    exact ⟨a, ha, hp⟩

theorem decide_imp_eq (a b : Bool) : decide (a = true → b = true) = (!a || b) := by
  cases a <;> cases b <;> simp

/-- C1 (amended).  The settling time the code computes equals the
sample-level description: the earliest in-tolerance sample time `t0` such
that some sample occurs at time `≥ t0 + settle_duration` and every sample
at such a time is within tolerance (tolerance violations strictly inside
the half-second window are not examined). -/
theorem settling_time_code_semantics (ts fe le re : List ℚ)
    (f_tol l_tol r_tol sdur : ℚ)
    (hfe : fe.length = ts.length) (hle : le.length = ts.length)
    (hre : re.length = ts.length) :
    calculate_settling_time ts fe le re f_tol l_tol r_tol sdur =
      settling_time_amended ts fe le re f_tol l_tol r_tol sdur := by
  have hwt : (within_tol_list fe le re f_tol l_tol r_tol).length = ts.length := by
    simp [within_tol_list, List.length_zipWith, List.length_map, hfe, hle, hre]
  simp only [calculate_settling_time, settling_time_amended]
  set wt := within_tol_list fe le re f_tol l_tol r_tol with hwtdef
  by_cases hany : wt.any id
  · rw [if_neg (by simp [hany])]
    have hlen : (ts.zip wt).length = ts.length := by
      rw [List.length_zip, hwt, min_self]
    have key : ∀ i ∈ List.range ts.length,
        settle_candidate ts wt sdur i =
          amended_candidate (ts.zip wt) sdur ((ts.zip wt).getD i (0, false)) := by
      intro i hi
      rw [List.mem_range] at hi
      rw [zip_getD ts wt 0 false i hi (by omega)]
      simp only [settle_candidate, amended_candidate]
      by_cases hw : wt.getD i false
      · rw [if_pos hw, hw]
        simp only [Bool.true_and]
        rw [filter_length_pos_eq_any]
        have hall : ((ts.zip wt).filter
              (fun p => decide (ts.getD i 0 + sdur ≤ p.1))).all (fun p => p.2) =
            (ts.zip wt).all
              (fun q => !(decide (ts.getD i 0 + sdur ≤ q.1)) || q.2) := by
          rw [List.all_filter]
          apply congrArg
          funext q
          exact decide_imp_eq _ _
        rw [hall]
      · rw [if_neg hw]
        have hw' : wt.getD i false = false := by
          revert hw
          cases wt.getD i false <;> simp
        rw [hw']
        simp
    calc (List.range ts.length).findSome? (settle_candidate ts wt sdur)
        = (List.range ts.length).findSome?
            (fun i => amended_candidate (ts.zip wt) sdur
              ((ts.zip wt).getD i (0, false))) := findSome?_congr _ key
      _ = (ts.zip wt).findSome? (amended_candidate (ts.zip wt) sdur) := by
          rw [← hlen]
          exact findSome?_range_getD (ts.zip wt) (0, false)
            (amended_candidate (ts.zip wt) sdur)
  · rw [if_pos (by simp [hany])]
    symm
    rw [List.findSome?_eq_none_iff]
    intro s hs
    have hs2 : s.2 = false := by
      have hmem : s.2 ∈ wt := (List.of_mem_zip hs).2
      by_contra hne
      have htrue : s.2 = true := by
        revert hne
        cases s.2 <;> simp
      exact absurd (List.any_eq_true.mpr ⟨s.2, hmem, by simp [htrue]⟩) hany
    simp [amended_candidate, hs2]

/-- Witness for `settling_time_code_semantics` at a concrete session. -/
theorem settling_time_code_semantics_witness :
    calculate_settling_time [0, 1] [0, 0] [0, 0] [0, 0] (1/10) (1/20) 2 (1/2) =
      settling_time_amended [0, 1] [0, 0] [0, 0] [0, 0] (1/10) (1/20) 2 (1/2) :=
  settling_time_code_semantics [0, 1] [0, 0] [0, 0] [0, 0] (1/10) (1/20) 2 (1/2)
    rfl rfl rfl

/-! ## Structural lemmas about session extraction -/

theorem choose_reference_fwd {tF tR : List ℚ} (h : tF ≠ []) :
    choose_reference tF tR = some tF := by
  unfold choose_reference
  rw [if_pos (List.length_pos.mpr h)]

theorem choose_reference_rot {tF tR : List ℚ} (h : tF = []) (h2 : tR ≠ []) :
    choose_reference tF tR = some tR := by
  unfold choose_reference
  rw [if_neg (by simp [h]), if_pos (List.length_pos.mpr h2)]

theorem choose_reference_none {tF tR : List ℚ} (h : tF = []) (h2 : tR = []) :
    choose_reference tF tR = none := by
  subst h h2
  rfl

theorem choose_reference_eq_some {tF tR T : List ℚ}
    (h : choose_reference tF tR = some T) : T = tF ∨ T = tR := by
  unfold choose_reference at h
  by_cases h1 : 0 < tF.length
  · rw [if_pos h1] at h
    exact Or.inl (Option.some.inj h).symm
  · rw [if_neg h1] at h
    by_cases h2 : 0 < tR.length
    · rw [if_pos h2] at h
      exact Or.inr (Option.some.inj h).symm
    · rw [if_neg h2] at h
      cases h

theorem get_values_in_range_mem_bounds (ch : Option NumChannel) (st en : ℚ) :
    ∀ t ∈ (get_values_in_range ch st en).1, st ≤ t ∧ t ≤ en := by
  intro t ht
  cases ch with
  | none => simp [get_values_in_range] at ht
  | some c =>
    simp only [get_values_in_range, List.mem_map] at ht
    obtain ⟨p, hp, rfl⟩ := ht
    have hcond := (List.mem_filter.mp hp).2
    simp only [decide_eq_true_eq] at hcond
    exact hcond

theorem build_session_none_of_no_reference (d : AnalyzerData) (st en : ℚ)
    (h : choose_reference (get_values_in_range d.forward_error st en).1
        (get_values_in_range d.rotation_error st en).1 = none) :
    build_session d st en = Except.ok none := by
  simp only [build_session, h]

theorem build_session_some (d : AnalyzerData) (st en : ℚ) (T : List ℚ)
    (hT : choose_reference (get_values_in_range d.forward_error st en).1
        (get_values_in_range d.rotation_error st en).1 = some T)
    (cv : BoolChannel) (hv : d.vision_has_target = some cv)
    (cf : BoolChannel) (hf : d.fully_aligned = some cf) :
    ∃ s : AlignmentSession,
      build_session d st en = Except.ok (some s) ∧
      s.start_time = st ∧ s.end_time = en ∧ s.duration = en - st ∧
      s.timestamps = T.map (fun t => t - st) := by
  simp only [build_session, hT, hv, hf, get_bool_values_in_range, bool_resample]
  exact ⟨_, rfl, rfl, rfl, rfl, rfl⟩

theorem build_session_ok_some (d : AnalyzerData) (st en : ℚ)
    (s : AlignmentSession)
    (hok : build_session d st en = Except.ok (some s)) :
    s.start_time = st ∧ s.end_time = en ∧ s.duration = en - st ∧
    ∃ T, choose_reference (get_values_in_range d.forward_error st en).1
          (get_values_in_range d.rotation_error st en).1 = some T ∧
        s.timestamps = T.map (fun t => t - st) := by
  rcases hcr : choose_reference (get_values_in_range d.forward_error st en).1
      (get_values_in_range d.rotation_error st en).1 with _ | T
  · rw [build_session_none_of_no_reference d st en hcr] at hok
    simp at hok
  · simp only [build_session, hcr] at hok
    rcases hb1 : bool_resample
        (get_bool_values_in_range d.vision_has_target st en) T with e1 | hasT
    · simp only [hb1] at hok
      simp at hok
    · simp only [hb1] at hok
      rcases hb2 : bool_resample
          (get_bool_values_in_range d.fully_aligned st en) T with e2 | alignedF
      · simp only [hb2] at hok
        simp at hok
      · simp only [hb2, Except.ok.injEq, Option.some.injEq] at hok
        subst hok
        exact ⟨rfl, rfl, rfl, T, rfl, rfl⟩

theorem extract_session_ok_some (d : AnalyzerData) (sd : StatusChannel)
    (i j : Nat) (s : AlignmentSession)
    (hok : extract_session d sd i j = Except.ok (some s)) :
    1/10 ≤ sd.timestamps.getD j 0 - sd.timestamps.getD i 0 ∧
    build_session d (sd.timestamps.getD i 0) (sd.timestamps.getD j 0) =
      Except.ok (some s) := by
  by_cases hd : sd.timestamps.getD j 0 - sd.timestamps.getD i 0 < 1/10
  · exfalso
    simp only [extract_session] at hok
    rw [if_pos hd] at hok
    simp at hok
  · refine ⟨not_lt.mp hd, ?_⟩
    simp only [extract_session] at hok
    rwa [if_neg hd] at hok

/-- C3 (amended).  If both error channels have no samples in range the
session is discarded; otherwise the reference timestamps are the
forward-error channel's whenever it has any sample in range (regardless of
sample counts), else the rotation-error channel's. -/
theorem reference_choice_amended (d : AnalyzerData) (st en : ℚ) :
    ((get_values_in_range d.forward_error st en).1 = [] →
      (get_values_in_range d.rotation_error st en).1 = [] →
      build_session d st en = Except.ok none) ∧
    (∀ s : AlignmentSession, build_session d st en = Except.ok (some s) →
      ((get_values_in_range d.forward_error st en).1 ≠ [] ∧
        s.timestamps =
          (get_values_in_range d.forward_error st en).1.map (fun t => t - st)) ∨
      ((get_values_in_range d.forward_error st en).1 = [] ∧
        s.timestamps =
          (get_values_in_range d.rotation_error st en).1.map (fun t => t - st))) := by
  constructor
  · intro h1 h2
    exact build_session_none_of_no_reference d st en (choose_reference_none h1 h2)
  · intro s hok
    obtain ⟨-, -, -, T, hT, hts⟩ := build_session_ok_some d st en s hok
    by_cases hf : (get_values_in_range d.forward_error st en).1 = []
    · right
      refine ⟨hf, ?_⟩
      by_cases hr : (get_values_in_range d.rotation_error st en).1 = []
      · rw [choose_reference_none hf hr] at hT
        cases hT
      · rw [choose_reference_rot hf hr] at hT
        rw [hts, Option.some.inj hT]
    · left
      refine ⟨hf, ?_⟩
      rw [choose_reference_fwd hf] at hT
      rw [hts, Option.some.inj hT]

/-- Witness for `reference_choice_amended`: with both error channels
absent the candidate session is discarded. -/
theorem reference_choice_amended_witness :
    build_session c3_empty_data 0 1 = Except.ok none :=
  (reference_choice_amended c3_empty_data 0 1).1
    (by with_unfolding_all decide) (by with_unfolding_all decide)

/-- C6 (amended).  The session-relative clock subtracts the status
channel's `start_time` (the opening sample's timestamp): the relative
array is the in-window reference timestamps shifted by `start_time`, and
every entry lies in `[0, duration]`; the first entry is `0` only when the
reference channel has a sample exactly at `start_time`. -/
theorem relative_timestamps_amended (d : AnalyzerData) (sd : StatusChannel)
    (i j : Nat) (s : AlignmentSession)
    (hok : extract_session d sd i j = Except.ok (some s)) :
    s.start_time = sd.timestamps.getD i 0 ∧
    s.duration = s.end_time - s.start_time ∧
    (s.timestamps =
        (get_values_in_range d.forward_error s.start_time s.end_time).1.map
          (fun t => t - s.start_time) ∨
      s.timestamps =
        (get_values_in_range d.rotation_error s.start_time s.end_time).1.map
          (fun t => t - s.start_time)) ∧
    (∀ x ∈ s.timestamps, 0 ≤ x ∧ x ≤ s.duration) := by
  obtain ⟨hdur, hbuild⟩ := extract_session_ok_some d sd i j s hok
  obtain ⟨hst, hen, hd, T, hT, hts⟩ :=
    build_session_ok_some d (sd.timestamps.getD i 0) (sd.timestamps.getD j 0) s hbuild
  refine ⟨hst, by rw [hd, hen, hst], ?_, ?_⟩
  · rcases choose_reference_eq_some hT with rfl | rfl
    · left
      rw [hts, hst, hen]
    · right
      rw [hts, hst, hen]
  · intro x hx
    rw [hts] at hx
    obtain ⟨t, htm, rfl⟩ := List.mem_map.mp hx
    have hbounds : sd.timestamps.getD i 0 ≤ t ∧ t ≤ sd.timestamps.getD j 0 := by
      rcases choose_reference_eq_some hT with rfl | rfl
      · exact get_values_in_range_mem_bounds d.forward_error _ _ t htm
      · exact get_values_in_range_mem_bounds d.rotation_error _ _ t htm
    constructor
    · linarith [hbounds.1]
    · rw [hd]
      linarith [hbounds.2]

/-- Witness for `relative_timestamps_amended` on the concrete session of
`c6_data`: the first relative timestamp 0.05 lies in `[0, duration]`. -/
theorem relative_timestamps_amended_witness :
    0 ≤ (1 : ℚ)/20 ∧ (1 : ℚ)/20 ≤ c6_session.duration :=
  (relative_timestamps_amended c6_data pair_status 0 1 c6_session
      (by with_unfolding_all decide)).2.2.2
    (1/20) (by with_unfolding_all decide)

/-- C8 (confirmed).  A candidate session spanning less than 0.1s is
silently dropped before any channel work; one spanning 0.1s or more is
kept whenever reference timestamps exist in range (and the boolean
channels are present, which extraction needs — see the C2 bug). -/
theorem short_session_filter (d : AnalyzerData) (sd : StatusChannel) (i j : Nat) :
    (sd.timestamps.getD j 0 - sd.timestamps.getD i 0 < 1/10 →
      extract_session d sd i j = Except.ok none) ∧
    (1/10 ≤ sd.timestamps.getD j 0 - sd.timestamps.getD i 0 →
      (get_values_in_range d.forward_error (sd.timestamps.getD i 0)
        (sd.timestamps.getD j 0)).1 ≠ [] →
      d.vision_has_target.isSome = true →
      d.fully_aligned.isSome = true →
      (result_session (extract_session d sd i j)).isSome = true) := by
  constructor
  · intro hd
    simp only [extract_session]
    rw [if_pos hd]
  · intro hd href hv hf
    obtain ⟨cv, hcv⟩ := Option.isSome_iff_exists.mp hv
    obtain ⟨cf, hcf⟩ := Option.isSome_iff_exists.mp hf
    obtain ⟨s, hbs, -, -, -, -⟩ := build_session_some d
      (sd.timestamps.getD i 0) (sd.timestamps.getD j 0) _
      (choose_reference_fwd href) cv hcv cf hcf
    simp only [extract_session]
    rw [if_neg (not_lt.mpr hd), hbs]
    rfl

/-- Witness for `short_session_filter`: a 0.05s STARTED/COMPLETED pair
yields no session, an exactly-0.1s pair yields one. -/
theorem short_session_filter_witness :
    extract_session c2_ok_data c8_short_status 0 1 = Except.ok none ∧
    (result_session (extract_session c2_ok_data c8_exact_status 0 1)).isSome = true :=
  ⟨(short_session_filter c2_ok_data c8_short_status 0 1).1
      (by with_unfolding_all decide),
   (short_session_filter c2_ok_data c8_exact_status 0 1).2
      (by with_unfolding_all decide) (by with_unfolding_all decide) rfl rfl⟩

/-- Exact-grid evaluation of the interpolation kernel: on a point list
with strictly increasing times, evaluating at a grid time returns that
grid point's value. -/
theorem interp_points_exact :
    ∀ (ps : List (ℚ × ℚ)) (p : ℚ × ℚ) (x v : ℚ),
      (x, v) ∈ p :: ps →
      List.Pairwise (fun a b : ℚ × ℚ => a.1 < b.1) (p :: ps) →
      interp_points x p ps = v := by
  intro ps
  induction ps with
  | nil =>
    intro p x v hmem _
    obtain rfl := List.mem_singleton.mp hmem
    rfl
  | cons q qs ih =>
    intro p x v hmem hpw
    obtain ⟨t0, v0⟩ := p
    obtain ⟨t1, v1⟩ := q
    rcases List.mem_cons.mp hmem with heq | hmem2
    · injection heq with h1 h2
      subst h1
      subst h2
      have hxt1 : x < t1 :=
        (List.pairwise_cons.mp hpw).1 (t1, v1) (List.mem_cons_self _ _)
      simp only [interp_points]
      rw [if_pos hxt1, if_pos (le_refl x)]
    · have ht1x : t1 ≤ x := by
        rcases List.mem_cons.mp hmem2 with heq2 | hmem3
        · injection heq2 with h1 h2
          exact le_of_eq h1.symm
        · have hpw2 := (List.pairwise_cons.mp hpw).2
          exact le_of_lt ((List.pairwise_cons.mp hpw2).1 (x, v) hmem3)
      simp only [interp_points]
      rw [if_neg (not_lt.mpr ht1x)]
      exact ih (t1, v1) x v hmem2 (List.pairwise_cons.mp hpw).2

/-- C9 (amended).  For a non-empty channel whose timestamps are strictly
increasing (no duplicates), resampling onto its own timestamps returns
the original values exactly. -/
theorem resample_identity_strict (ts vs : List ℚ)
    (hsort : List.Pairwise (· < ·) ts)
    (hlen : ts.length = vs.length) (hne : ts ≠ []) :
    interp_to_common ts vs ts = vs := by
  have hvs : vs ≠ [] := by
    intro h
    apply hne
    rw [h] at hlen
    exact List.length_eq_zero.mp hlen
  unfold interp_to_common
  rw [if_neg (by simp [List.length_eq_zero, hne, hvs])]
  unfold np_interp
  rcases hz : ts.zip vs with _ | ⟨p, ps⟩
  · exfalso
    have h0 : (ts.zip vs).length = 0 := by
      rw [hz]
      rfl
    rw [List.length_zip, ← hlen, min_self] at h0
    exact hne (List.length_eq_zero.mp h0)
  · simp only [hz]
    have hmapfst : (p :: ps).map Prod.fst = ts := by
      rw [← hz]
      exact List.map_fst_zip ts vs (le_of_eq hlen)
    have hpw : List.Pairwise (fun a b : ℚ × ℚ => a.1 < b.1) (p :: ps) := by
      apply List.pairwise_map.mp
      rw [hmapfst]
      exact hsort
    have hmapsnd : (p :: ps).map Prod.snd = vs := by
      rw [← hz]
      exact List.map_snd_zip ts vs (le_of_eq hlen.symm)
    rw [← hmapfst, ← hmapsnd, List.map_map]
    apply List.map_congr_left
    intro a ha
    have hamem : (a.1, a.2) ∈ p :: ps := by
      rwa [Prod.mk.eta]
    exact interp_points_exact ps p a.1 a.2 hamem hpw

/-- Witness for `resample_identity_strict` on a concrete strictly
increasing channel. -/
theorem resample_identity_strict_witness :
    interp_to_common [0, 1, 2] [5, 6, 7] [0, 1, 2] = [5, 6, 7] :=
  resample_identity_strict [0, 1, 2] [5, 6, 7]
    (by norm_num [List.pairwise_cons]) rfl (by simp)

/-- Bounds invariant of the segmenter scan: every produced range is
well-formed (`start ≤ end`), ends before the scan frontier plus the
remaining input, and starts no earlier than the recorded session start
(resp. the frontier when idle). -/
theorem session_ranges_aux_bounds :
    ∀ (ss : List String) (i : Nat) (st : Option Nat),
      (∀ j, st = some j → j < i) →
      ∀ p ∈ session_ranges_aux st i ss,
        p.1 ≤ p.2 ∧ p.2 < i + ss.length ∧
        (∀ j, st = some j → j ≤ p.1) ∧ (st = none → i ≤ p.1) := by
  intro ss
  induction ss with
  | nil =>
    intro i st hst p hp
    cases st with
    | none => simp [session_ranges_aux] at hp
    | some j =>
      have hj := hst j rfl
      simp only [session_ranges_aux, List.mem_singleton] at hp
      subst hp
      refine ⟨by omega, by simp; omega, ?_, ?_⟩
      · intro j2 hj2
        injection hj2 with h2
        omega
      · intro hc
        cases hc
  | cons s rest ih =>
    intro i st hst p hp
    cases st with
    | none =>
      simp only [session_ranges_aux] at hp
      by_cases h : is_start_trigger s
      · rw [if_pos h] at hp
        obtain ⟨h1, h2, h3, h4⟩ := ih (i + 1) (some i)
          (by intro j hj; injection hj with h2; omega) p hp
        have hip : i ≤ p.1 := h3 i rfl
        refine ⟨h1, by simp; omega, ?_, fun _ => hip⟩
        intro j2 hj2
        cases hj2
      · rw [if_neg h] at hp
        obtain ⟨h1, h2, h3, h4⟩ := ih (i + 1) none (by intro _ hc; cases hc) p hp
        have hip : i + 1 ≤ p.1 := h4 rfl
        refine ⟨h1, by simp; omega, ?_, fun _ => by omega⟩
        intro j2 hj2
        cases hj2
    | some j =>
      have hj := hst j rfl
      simp only [session_ranges_aux] at hp
      by_cases h : is_end_trigger s
      · rw [if_pos h] at hp
        rcases List.mem_cons.mp hp with rfl | hp2
        · refine ⟨le_of_lt hj, by simp, ?_, ?_⟩
          · intro j2 hj2
            injection hj2 with h2
            omega
          · intro hc
            cases hc
        · obtain ⟨h1, h2, h3, h4⟩ := ih (i + 1) none (by intro _ hc; cases hc) p hp2
          have hip : i + 1 ≤ p.1 := h4 rfl
          refine ⟨h1, by simp; omega, ?_, ?_⟩
          · intro j2 hj2
            injection hj2 with h2
            omega
          · intro hc
            cases hc
      · rw [if_neg h] at hp
        obtain ⟨h1, h2, h3, h4⟩ := ih (i + 1) (some j)
          (by intro j2 hj2; injection hj2 with h2; omega) p hp
        refine ⟨h1, by simp; omega, ?_, ?_⟩
        · intro j2 hj2
          injection hj2 with h2
          have := h3 j rfl
          omega
        · intro hc
          cases hc

/-- The ranges produced by the segmenter scan are pairwise disjoint and in
index order: every earlier range ends strictly before every later range
starts. -/
theorem session_ranges_aux_pairwise :
    ∀ (ss : List String) (i : Nat) (st : Option Nat),
      (∀ j, st = some j → j < i) →
      List.Pairwise (fun a b : Nat × Nat => a.2 < b.1)
        (session_ranges_aux st i ss) := by
  intro ss
  induction ss with
  | nil =>
    intro i st hst
    cases st with
    | none => simp [session_ranges_aux]
    | some j => simp [session_ranges_aux]
  | cons s rest ih =>
    intro i st hst
    cases st with
    | none =>
      simp only [session_ranges_aux]
      by_cases h : is_start_trigger s
      · rw [if_pos h]
        exact ih (i + 1) (some i) (by intro j hj; injection hj with h2; omega)
      · rw [if_neg h]
        exact ih (i + 1) none (by intro _ hc; cases hc)
    | some j =>
      simp only [session_ranges_aux]
      by_cases h : is_end_trigger s
      · rw [if_pos h, List.pairwise_cons]
        constructor
        · intro q hq
          have hb := session_ranges_aux_bounds rest (i + 1) none
            (by intro _ hc; cases hc) q hq
          have hi1 := hb.2.2.2 rfl
          show i < q.1
          omega
        · exact ih (i + 1) none (by intro _ hc; cases hc)
      · rw [if_neg h]
        exact ih (i + 1) (some j) (by
          intro j2 hj2
          injection hj2 with h2
          have := hst j rfl
          omega)

/-- Every session produced by `collect_sessions` comes from one of the
scanned ranges via a successful extraction. -/
theorem collect_sessions_mem (d : AnalyzerData) (sd : StatusChannel) :
    ∀ (rs : List (Nat × Nat)) (l : List AlignmentSession),
      collect_sessions d sd rs = Except.ok l →
      ∀ s ∈ l, ∃ r ∈ rs, extract_session d sd r.1 r.2 = Except.ok (some s) := by
  intro rs
  induction rs with
  | nil =>
    intro l h s hs
    simp only [collect_sessions, Except.ok.injEq] at h
    subst h
    simp at hs
  | cons r rest ih =>
    intro l h s hs
    simp only [collect_sessions] at h
    rcases hex : extract_session d sd r.1 r.2 with e | os
    · simp only [hex] at h
      simp at h
    · simp only [hex] at h
      cases os with
      | none =>
        obtain ⟨r2, hr2, hx⟩ := ih l h s hs
        exact ⟨r2, List.mem_cons_of_mem r hr2, hx⟩
      | some s0 =>
        rcases hc : collect_sessions d sd rest with e2 | l2
        · simp only [hc] at h
          simp at h
        · simp only [hc, Except.ok.injEq] at h
          subst h
          rcases List.mem_cons.mp hs with rfl | hs2
          · exact ⟨r, List.mem_cons_self _ _, hex⟩
          · obtain ⟨r2, hr2, hx⟩ := ih l2 hc s hs2
            exact ⟨r2, List.mem_cons_of_mem r hr2, hx⟩

/-- A pairwise relation on the scanned ranges transfers to the collected
session list whenever it is compatible with extraction. -/
theorem collect_sessions_pairwise (d : AnalyzerData) (sd : StatusChannel)
    (P : AlignmentSession → AlignmentSession → Prop)
    (R : (Nat × Nat) → (Nat × Nat) → Prop)
    (hcompat : ∀ r1 r2 s1 s2, R r1 r2 →
      extract_session d sd r1.1 r1.2 = Except.ok (some s1) →
      extract_session d sd r2.1 r2.2 = Except.ok (some s2) → P s1 s2) :
    ∀ (rs : List (Nat × Nat)) (l : List AlignmentSession),
      List.Pairwise R rs → collect_sessions d sd rs = Except.ok l →
      List.Pairwise P l := by
  intro rs
  induction rs with
  | nil =>
    intro l hR h
    simp only [collect_sessions, Except.ok.injEq] at h
    subst h
    exact List.Pairwise.nil
  | cons r rest ih =>
    intro l hR h
    simp only [collect_sessions] at h
    obtain ⟨hRhead, hRtail⟩ := List.pairwise_cons.mp hR
    rcases hex : extract_session d sd r.1 r.2 with e | os
    · simp only [hex] at h
      simp at h
    · simp only [hex] at h
      cases os with
      | none => exact ih l hRtail h
      | some s0 =>
        rcases hc : collect_sessions d sd rest with e2 | l2
        · simp only [hc] at h
          simp at h
        · simp only [hc, Except.ok.injEq] at h
          subst h
          rw [List.pairwise_cons]
          constructor
          · intro s2 hs2
            obtain ⟨r2, hr2, hx2⟩ := collect_sessions_mem d sd rest l2 hc s2 hs2
            exact hcompat r r2 s0 s2 (hRhead r2 hr2) hex hx2
          · exact ih l2 hRtail hc

/-- C10 (confirmed).  With non-decreasing status timestamps and parallel
status arrays, the analysis output is chronologically ordered and
non-overlapping: scanned index ranges are well-formed and pairwise
disjoint (each later range starts strictly after the previous ends), and
every returned session has `duration = end_time - start_time ≥ 0.1` with
`start_time ≤ end_time`, consecutive sessions satisfying
`end_time ≤ next.start_time`. -/
theorem sessions_ordered_disjoint (d : AnalyzerData) (sd : StatusChannel)
    (hsd : d.status = some sd)
    (hsort : List.Pairwise (· ≤ ·) sd.timestamps)
    (hlen : sd.values.length = sd.timestamps.length)
    (sessions : List AlignmentSession)
    (hok : find_alignment_sessions d = Except.ok sessions) :
    (∀ r ∈ session_ranges sd.values, r.1 ≤ r.2 ∧ r.2 < sd.values.length) ∧
    List.Pairwise (fun a b : Nat × Nat => a.2 < b.1) (session_ranges sd.values) ∧
    (∀ s ∈ sessions, 1/10 ≤ s.duration ∧ s.start_time ≤ s.end_time ∧
      s.duration = s.end_time - s.start_time) ∧
    List.Pairwise (fun a b : AlignmentSession => a.end_time ≤ b.start_time)
      sessions := by
  simp only [find_alignment_sessions, hsd] at hok
  have hbounds : ∀ r ∈ session_ranges sd.values,
      r.1 ≤ r.2 ∧ r.2 < sd.values.length := by
    intro r hr
    have h := session_ranges_aux_bounds sd.values 0 none
      (by intro _ hc; cases hc) r hr
    exact ⟨h.1, by simpa using h.2.1⟩
  have hrp : List.Pairwise (fun a b : Nat × Nat => a.2 < b.1)
      (session_ranges sd.values) :=
    session_ranges_aux_pairwise sd.values 0 none (by intro _ hc; cases hc)
  refine ⟨hbounds, hrp, ?_, ?_⟩
  · intro s hs
    obtain ⟨r, hr, hx⟩ := collect_sessions_mem d sd _ sessions hok s hs
    obtain ⟨hd10, hb⟩ := extract_session_ok_some d sd r.1 r.2 s hx
    obtain ⟨hst, hen, hdur, -⟩ := build_session_ok_some d _ _ s hb
    refine ⟨?_, ?_, ?_⟩
    · rw [hdur]
      exact hd10
    · rw [hst, hen]
      linarith
    · rw [hdur, hst, hen]
  · have hmono : ∀ a b : Nat, a < b → b < sd.timestamps.length →
        sd.timestamps.getD a 0 ≤ sd.timestamps.getD b 0 := by
      intro a b hab hb
      have ha : a < sd.timestamps.length := lt_trans hab hb
      rw [List.getD_eq_getElem _ _ ha, List.getD_eq_getElem _ _ hb]
      exact List.pairwise_iff_getElem.mp hsort a b ha hb hab
    have hrp2 : List.Pairwise (fun a b : Nat × Nat =>
        a.2 < b.1 ∧ b.1 ≤ b.2 ∧ b.2 < sd.values.length)
        (session_ranges sd.values) := by
      refine List.Pairwise.imp_of_mem ?_ hrp
      intro a b ha hb hab
      exact ⟨hab, (hbounds b hb).1, (hbounds b hb).2⟩
    refine collect_sessions_pairwise d sd _ _ ?_ _ sessions hrp2 hok
    intro r1 r2 s1 s2 hR hx1 hx2
    obtain ⟨-, hb1⟩ := extract_session_ok_some d sd r1.1 r1.2 s1 hx1
    obtain ⟨-, hb2⟩ := extract_session_ok_some d sd r2.1 r2.2 s2 hx2
    obtain ⟨-, hen1, -, -⟩ := build_session_ok_some d _ _ s1 hb1
    obtain ⟨hst2, -, -, -⟩ := build_session_ok_some d _ _ s2 hb2
    rw [hen1, hst2]
    have hlt : r2.1 < sd.timestamps.length := by
      have h1 := hR.2.1
      have h2 := hR.2.2
      omega
    exact hmono r1.2 r2.1 hR.1 hlt

/-- Witness for `sessions_ordered_disjoint` on a concrete two-session
log. -/
theorem sessions_ordered_disjoint_witness :
    List.Pairwise (fun a b : AlignmentSession => a.end_time ≤ b.start_time)
      (sessions_of (find_alignment_sessions c10_data)) :=
  (sessions_ordered_disjoint c10_data c10_status rfl
    (by norm_num [c10_status, List.pairwise_cons]) rfl
    (sessions_of (find_alignment_sessions c10_data))
    (by with_unfolding_all decide)).2.2.2

end AlignmentAnalysis
